import Mathlib

/-!
Shallow embedding of the session-aware RAG orchestration core of the
`sbg-fastapi` repository (files `app/session_manager.py`, `app/rag_core.py`,
`app/main.py`), together with theorems settling the specification claims.

Modelling conventions:
* The relational store (SQLAlchemy `Session` / `Message` tables) is a pure
  value `DB` holding the rows in insertion order plus a logical clock.
  Every call of `datetime.utcnow()` in the source is modelled by reading
  the clock `db.clock`; an operation that stamps rows advances the clock,
  so stamps are strictly increasing in insertion order (the real store's
  `created_at` values are non-decreasing, with ties broken by insertion
  order; `ORDER BY created_at DESC` behaviour is identical under either
  reading, which the strictly increasing clock makes explicit).
* `str(uuid.uuid4())` is modelled by a caller-supplied `newId : String`;
  uniqueness of the generated id is an explicit hypothesis where needed.
* The Azure providers are modelled as oracles: the outcome of
  `retrieve_documents` is a parameter `docsRes : Except String (List DocumentChunk)`
  and the chat-completion call is a parameter
  `gen : List ChatMessage → Except String String` (error value = the text of
  the exception raised by the provider).  A Python `raise` is an `Except.error`
  result; functions that mutate the store before possibly raising return the
  mutated store alongside the `Except` value.
* Floating point relevance scores are not used by any claim; the `score`
  field carried by `retrieve_documents` results is modelled as an `Int`.
-/

namespace SbgRag

/-- Row of the `sessions` table (`db/models.py`, class `Session`). -/
structure SessionRec where
  session_id : String
  created_at : Nat
  last_active : Nat
deriving DecidableEq

/-- Row of the `messages` table (`db/models.py`, class `Message`).  The
autoincrement surrogate key `id` is represented by the row's position in the
insertion-ordered list. -/
structure MessageRec where
  session_id : String
  role : String
  content : String
  created_at : Nat
deriving DecidableEq

/-- The relational store: both tables in insertion order, plus the logical
clock standing for `datetime.utcnow()`. -/
structure DB where
  sessions : List SessionRec
  messages : List MessageRec
  clock : Nat
deriving DecidableEq

/-- Constant `CHAT_HISTORY_LIMIT = 6` from `app/rag_core.py`. -/
def CHAT_HISTORY_LIMIT : Nat := 6

/-- Update `last_active` of every session row matching `sid` (the SQLAlchemy
code mutates the single fetched ORM row; with unique ids the map touches at
most one row). -/
def touch_sessions (l : List SessionRec) (sid : String) (now : Nat) : List SessionRec :=
  l.map fun s => if s.session_id = sid then ⟨s.session_id, s.created_at, now⟩ else s

/-- Insert a fresh session row with both timestamps set to now, as in the
fall-through branch of `get_or_create_session`. -/
def create_session (db : DB) (newId : String) : String × DB :=
  (newId, ⟨db.sessions ++ [⟨newId, db.clock, db.clock⟩], db.messages, db.clock + 1⟩)

/-- Embedding of `get_or_create_session` (`app/session_manager.py`).  Python's
`if session_id:` is false for both `None` and the empty string, hence the
explicit empty-string test. -/
def get_or_create_session (db : DB) (session_id : Option String) (newId : String) :
    String × DB :=
  match session_id with
  | none => create_session db newId
  | some sid =>
    if sid = "" then create_session db newId
    else
      match db.sessions.find? (fun s => s.session_id = sid) with
      | some s => (s.session_id,
          ⟨touch_sessions db.sessions sid db.clock, db.messages, db.clock + 1⟩)
      | none => create_session db newId

/-- Embedding of `save_message` (`app/session_manager.py`): unconditionally
insert the message row, update the owning session's `last_active` when that
session exists (and do nothing else when it does not), commit.  The source
raises no exception on an unknown session id. -/
def save_message (db : DB) (sid role content : String) : DB :=
  ⟨touch_sessions db.sessions sid db.clock,
   db.messages ++ [⟨sid, role, content, db.clock⟩],
   db.clock + 1⟩

/-- Rows of the `messages` table belonging to `sid`, in insertion order
(the `filter_by(session_id=...)` of `get_chat_history`). -/
def sessionMessages (db : DB) (sid : String) : List MessageRec :=
  db.messages.filter fun m => m.session_id = sid

/-- Insert a message into a list kept in descending `created_at` order
(auxiliary for the `ORDER BY created_at DESC` of `get_chat_history`). -/
def insertDesc (m : MessageRec) : List MessageRec → List MessageRec
  | [] => [m]
  | a :: rest =>
    if a.created_at ≤ m.created_at then m :: a :: rest else a :: insertDesc m rest

/-- Sort a message list by descending `created_at` (stable insertion sort),
modelling `ORDER BY created_at DESC`. -/
def sortDesc : List MessageRec → List MessageRec
  | [] => []
  | a :: rest => insertDesc a (sortDesc rest)

/-- Embedding of `get_chat_history` (`app/session_manager.py`): filter by
session id, order by `created_at` descending, keep the first `limit` rows,
return them reversed (oldest first). -/
def get_chat_history (db : DB) (sid : String) (limit : Nat) : List MessageRec :=
  (((sortDesc (sessionMessages db sid)).take limit)).reverse

/-- Boolean well-formedness of the store: message stamps strictly increase in
insertion order and all stamps lie below the clock.  Every operation of the
embedding preserves it and the empty store satisfies it. -/
def stampsAbove (t : Nat) (l : List MessageRec) : Bool :=
  l.all fun x => t < x.created_at

def sortedStrict : List MessageRec → Bool
  | [] => true
  | a :: rest => stampsAbove a.created_at rest && sortedStrict rest

def DB.wf (db : DB) : Bool :=
  sortedStrict db.messages && db.messages.all fun m => m.created_at < db.clock

/-- Every message row carries role `"user"` or `"assistant"` (the only roles
the orchestrator ever saves). -/
def rolesOk (db : DB) : Bool :=
  db.messages.all fun m => m.role = "user" || m.role = "assistant"

/-- One retrieval result of `retrieve_documents` (`app/rag_core.py`): content,
filename, chunk id and relevance score of a hit. -/
structure DocumentChunk where
  content : String
  filename : String
  chunk_id : Nat
  score : Int
deriving DecidableEq

/-- One element of the `messages` array sent to the chat-completion call. -/
structure ChatMessage where
  role : String
  content : String
deriving DecidableEq

/-- Result dict of `answer_question_with_memory`. -/
structure MemoryResult where
  session_id : String
  answer : String
  sources : List String
deriving DecidableEq

/-- One element of the `sources` list of the stateless `answer_question`. -/
structure SourceRef where
  document : String
  chunk_id : Nat
deriving DecidableEq

/-- Result dict of the stateless `answer_question`. -/
structure StatelessResult where
  answer : String
  sources : List SourceRef
deriving DecidableEq

/-- The `HTTPException` raised by the route handlers in `app/main.py`. -/
structure HTTPError where
  status : Nat
  detail : String
deriving DecidableEq

/-- Base system policy string of `answer_question_with_memory`
(`app/rag_core.py`, lines 193–197). -/
def BASE_SYSTEM : String :=
  "You are a compliance-safe assistant. Answer strictly using the provided context when available. If the answer is not in the context, say so."

/-- Context line built for one retrieved chunk:
`[<filename> – chunk <chunk_id>]` on one line followed by the content. -/
def chunkLine (d : DocumentChunk) : String :=
  "[" ++ d.filename ++ " – chunk " ++ toString d.chunk_id ++ "]\n" ++ d.content

/-- Join of the chunk lines separated by blank lines, the
`"\n\n".join(...)` of `app/rag_core.py` lines 188–191. -/
def contextOf : List DocumentChunk → String
  | [] => ""
  | [d] => chunkLine d
  | d :: rest => chunkLine d ++ "\n\n" ++ contextOf rest

/-- System prompt of the memory variant (`app/rag_core.py` lines 186–199):
the base policy, with the context block appended under the literal
`Context from documents:` header whenever the built context string is
non-empty; the base policy alone otherwise. -/
def systemPromptOf (policy : String) (docs : List DocumentChunk) : String :=
  let context := if docs = [] then "" else contextOf docs
  if context = "" then policy
  else policy ++ "\n\nContext from documents:\n" ++ context

/-- Message sequence composed for the generation call in the memory variant
(`app/rag_core.py` lines 201–203): one system message followed by the fetched
history in order, roles and contents preserved. -/
def composeMessages (policy : String) (docs : List DocumentChunk)
    (history : List MessageRec) : List ChatMessage :=
  ⟨"system", systemPromptOf policy docs⟩ :: history.map fun m => ⟨m.role, m.content⟩

/-- Steps 1–2 of `answer_question_with_memory` (`app/rag_core.py` lines
180–181): resolve the session, then append the user's turn; returns the
resolved id and the store right after the user turn is recorded. -/
def memory_run_pre (question : String) (session_id : Option String) (db : DB)
    (newId : String) : String × DB :=
  let r := get_or_create_session db session_id newId
  (r.1, save_message r.2 r.1 "user" question)

/-- Embedding of `answer_question_with_memory` (`app/rag_core.py` lines
175–219).  `docsRes` is the outcome of `retrieve_documents` (its error string
already carries the wrapped retrieval message); `gen` is the outcome of the
chat-completion call as a function of the messages sent.  The store reached
when the function returns or raises is the second component. -/
def answer_question_with_memory (question : String) (session_id : Option String)
    (db : DB) (newId : String) (docsRes : Except String (List DocumentChunk))
    (gen : List ChatMessage → Except String String) :
    Except String MemoryResult × DB :=
  let pre := memory_run_pre question session_id db newId
  match docsRes with
  | .error e => (.error e, pre.2)
  | .ok docs =>
    let history := get_chat_history pre.2 pre.1 CHAT_HISTORY_LIMIT
    match gen (composeMessages BASE_SYSTEM docs history) with
    | .error e =>
      (.error ("OpenAI Chat (404=wrong endpoint/deployment name): " ++ e), pre.2)
    | .ok answer =>
      let db3 := save_message pre.2 pre.1 "assistant" answer
      let sources :=
        if docs = [] then []
        else docs.map fun d =>
          d.filename ++ " (chunk " ++ toString d.chunk_id ++ ")"
      (.ok ⟨pre.1, answer, sources⟩, db3)

/-- Embedding of the stateless `answer_question` (`app/rag_core.py` lines
118–172).  When retrieval yields no documents the function returns the fixed
no-information answer without consulting `gen`. -/
def answer_question (question : String)
    (docsRes : Except String (List DocumentChunk))
    (gen : List ChatMessage → Except String String) :
    Except String StatelessResult :=
  match docsRes with
  | .error e => .error e
  | .ok docs =>
    if docs = [] then
      .ok ⟨"I cannot find this information in the available documents.", []⟩
    else
      let context := contextOf docs
      let system_prompt :=
        "You are a compliance-safe assistant. Answer strictly using the provided context. If the answer is not present, say so."
      let user_prompt := "\nContext:\n" ++ context ++ "\n\nQuestion:\n" ++ question ++ "\n"
      match gen [⟨"system", system_prompt⟩, ⟨"user", user_prompt⟩] with
      | .error e =>
        .error ("OpenAI Chat (404=wrong endpoint/deployment name): " ++ e)
      | .ok answer =>
        .ok ⟨answer, docs.map fun d => ⟨d.filename, d.chunk_id⟩⟩

/-- Result dict of `answer_network_guidance`. -/
structure NetworkResult where
  session_id : String
  guidance : String
  sources : List String
deriving DecidableEq

/-- Result dict of `answer_criteria_grid`. -/
structure CriteriaResult where
  session_id : String
  evaluation : String
  sources : List String
deriving DecidableEq

/-- Embedding of `answer_network_guidance` (`app/rag_core.py` lines 226–236):
delegate to the orchestrator, relabel the answer under the fixed literal. -/
def answer_network_guidance (question : String) (session_id : Option String)
    (db : DB) (newId : String) (docsRes : Except String (List DocumentChunk))
    (gen : List ChatMessage → Except String String) :
    Except String NetworkResult × DB :=
  match answer_question_with_memory question session_id db newId docsRes gen with
  | (.error e, db') => (.error e, db')
  | (.ok r, db') =>
    (.ok ⟨r.session_id,
          "Network Guidance (based on indexed documents):\n\n" ++ r.answer,
          r.sources⟩, db')

/-- Embedding of `answer_criteria_grid` (`app/rag_core.py` lines 239–249). -/
def answer_criteria_grid (question : String) (session_id : Option String)
    (db : DB) (newId : String) (docsRes : Except String (List DocumentChunk))
    (gen : List ChatMessage → Except String String) :
    Except String CriteriaResult × DB :=
  match answer_question_with_memory question session_id db newId docsRes gen with
  | (.error e, db') => (.error e, db')
  | (.ok r, db') =>
    (.ok ⟨r.session_id,
          "Criteria Evaluation (based on indexed documents):\n\n" ++ r.answer,
          r.sources⟩, db')

/-- Embedding of the `/rag/query` handler `rag_query` (`app/main.py` lines
60–86): on success return the orchestrator result; on any exception re-raise
as an `HTTPException` with status 500 and detail
`"Internal Server Error: " + str(e)`. -/
def rag_query (question : String) (session_id : Option String) (db : DB)
    (newId : String) (docsRes : Except String (List DocumentChunk))
    (gen : List ChatMessage → Except String String) :
    Except HTTPError MemoryResult × DB :=
  match answer_question_with_memory question session_id db newId docsRes gen with
  | (.ok r, db') => (.ok r, db')
  | (.error e, db') => (.error ⟨500, "Internal Server Error: " ++ e⟩, db')

/-! Supporting lemmas. -/

lemma stampsAbove_iff (t : Nat) (l : List MessageRec) :
    stampsAbove t l = true ↔ ∀ x ∈ l, t < x.created_at := by
  simp [stampsAbove, List.all_eq_true]

lemma insertDesc_of_lt (m : MessageRec) (l : List MessageRec)
    (h : ∀ x ∈ l, m.created_at < x.created_at) : insertDesc m l = l ++ [m] := by
  induction l with
  | nil => rfl
  | cons a rest ih =>
    have ha : ¬ a.created_at ≤ m.created_at := Nat.not_le.mpr (h a (by simp))
    simp [insertDesc, ha, ih fun x hx => h x (by simp [hx])]

lemma sortedStrict_cons_iff (a : MessageRec) (l : List MessageRec) :
    sortedStrict (a :: l) = true ↔
      (∀ x ∈ l, a.created_at < x.created_at) ∧ sortedStrict l = true := by
  simp [sortedStrict, Bool.and_eq_true, stampsAbove_iff]

lemma sortDesc_eq_reverse (l : List MessageRec) (h : sortedStrict l = true) :
    sortDesc l = l.reverse := by
  induction l with
  | nil => rfl
  | cons a rest ih =>
    obtain ⟨h1, h2⟩ := (sortedStrict_cons_iff a rest).mp h
    have : ∀ x ∈ rest.reverse, a.created_at < x.created_at := by
      intro x hx
      exact h1 x (List.mem_reverse.mp hx)
    simp [sortDesc, ih h2, insertDesc_of_lt a rest.reverse this]

lemma sortedStrict_filter (p : MessageRec → Bool) (l : List MessageRec)
    (h : sortedStrict l = true) : sortedStrict (l.filter p) = true := by
  induction l with
  | nil => simpa using h
  | cons a rest ih =>
    obtain ⟨h1, h2⟩ := (sortedStrict_cons_iff a rest).mp h
    by_cases hp : p a = true
    · rw [List.filter_cons_of_pos hp]
      refine (sortedStrict_cons_iff a _).mpr ⟨?_, ih h2⟩
      intro x hx
      exact h1 x (List.mem_of_mem_filter hx)
    · rw [List.filter_cons_of_neg hp]
      exact ih h2

lemma sortedStrict_append_last (l : List MessageRec) (m : MessageRec)
    (hs : sortedStrict l = true) (hlt : ∀ x ∈ l, x.created_at < m.created_at) :
    sortedStrict (l ++ [m]) = true := by
  induction l with
  | nil => simp [sortedStrict, stampsAbove]
  | cons a rest ih =>
    obtain ⟨h1, h2⟩ := (sortedStrict_cons_iff a rest).mp hs
    refine (sortedStrict_cons_iff a _).mpr ⟨?_, ih h2 fun x hx => hlt x (by simp [hx])⟩
    intro x hx
    rcases List.mem_append.mp hx with hx | hx
    · exact h1 x hx
    · have : x = m := by simpa using hx
      subst this
      exact hlt a (by simp)

lemma wf_parts {db : DB} (h : db.wf = true) :
    sortedStrict db.messages = true ∧ ∀ x ∈ db.messages, x.created_at < db.clock := by
  unfold DB.wf at h
  rw [Bool.and_eq_true] at h
  refine ⟨h.1, ?_⟩
  intro x hx
  have h2 := h.2
  rw [List.all_eq_true] at h2
  exact of_decide_eq_true (h2 x hx)

lemma wf_save (db : DB) (sid role content : String) (h : db.wf = true) :
    (save_message db sid role content).wf = true := by
  obtain ⟨hs, hlt⟩ := wf_parts h
  unfold save_message DB.wf
  rw [Bool.and_eq_true]
  constructor
  · exact sortedStrict_append_last db.messages _ hs fun x hx => hlt x hx
  · simp only [List.all_eq_true]
    intro x hx
    rcases List.mem_append.mp hx with hx | hx
    · simpa using Nat.lt_succ_of_lt (hlt x hx)
    · have : x = (⟨sid, role, content, db.clock⟩ : MessageRec) := by simpa using hx
      subst this
      exact decide_eq_true (Nat.lt_succ_self db.clock)

lemma get_or_create_snd (db : DB) (osid : Option String) (nid : String) :
    ((get_or_create_session db osid nid).2).messages = db.messages ∧
    ((get_or_create_session db osid nid).2).clock = db.clock + 1 := by
  cases osid with
  | none => exact ⟨rfl, rfl⟩
  | some sid =>
    by_cases he : sid = ""
    · simp [get_or_create_session, create_session, he]
    · cases hf : db.sessions.find? (fun s => s.session_id = sid) with
      | none => simp [get_or_create_session, create_session, he, hf]
      | some s => simp [get_or_create_session, create_session, he, hf]

lemma wf_get_or_create (db : DB) (osid : Option String) (nid : String)
    (h : db.wf = true) : ((get_or_create_session db osid nid).2).wf = true := by
  obtain ⟨hm, hc⟩ := get_or_create_snd db osid nid
  obtain ⟨hs, hlt⟩ := wf_parts h
  unfold DB.wf
  rw [hm, hc, Bool.and_eq_true]
  refine ⟨hs, ?_⟩
  simp only [List.all_eq_true]
  intro x hx
  simpa using Nat.lt_succ_of_lt (hlt x hx)

lemma reverse_take_reverse (l : List α) (n : Nat) :
    (l.reverse.take n).reverse = l.drop (l.length - n) := by
  rw [← List.rtake_eq_reverse_take_reverse]
  rfl

lemma get_chat_history_eq_drop (db : DB) (sid : String) (n : Nat)
    (h : db.wf = true) :
    get_chat_history db sid n
      = (sessionMessages db sid).drop ((sessionMessages db sid).length - n) := by
  obtain ⟨hs, _⟩ := wf_parts h
  have hsf : sortedStrict (sessionMessages db sid) = true :=
    sortedStrict_filter _ _ hs
  unfold get_chat_history
  rw [sortDesc_eq_reverse _ hsf, reverse_take_reverse]

lemma sessionMessages_save_same (db : DB) (sid role content : String) :
    sessionMessages (save_message db sid role content) sid
      = sessionMessages db sid ++ [⟨sid, role, content, db.clock⟩] := by
  unfold save_message sessionMessages
  simp [List.filter_append]

lemma get_chat_history_length (db : DB) (sid : String) (n : Nat)
    (h : db.wf = true) :
    (get_chat_history db sid n).length = min n (sessionMessages db sid).length := by
  rw [get_chat_history_eq_drop db sid n h, List.length_drop]
  omega

lemma mem_of_mem_get_chat_history {db : DB} {sid : String} {n : Nat}
    {m : MessageRec} (h : db.wf = true) (hm : m ∈ get_chat_history db sid n) :
    m ∈ db.messages := by
  rw [get_chat_history_eq_drop db sid n h] at hm
  exact List.mem_of_mem_filter (List.mem_of_mem_drop hm)

lemma wf_memory_run_pre (q : String) (osid : Option String) (db : DB)
    (nid : String) (h : db.wf = true) :
    ((memory_run_pre q osid db nid).2).wf = true :=
  wf_save _ _ _ _ (wf_get_or_create db osid nid h)

lemma history_decomp (q : String) (osid : Option String) (db : DB) (nid : String)
    (n : Nat) (hn : 1 ≤ n) (h : db.wf = true) :
    get_chat_history (memory_run_pre q osid db nid).2
        (memory_run_pre q osid db nid).1 n
      = (sessionMessages (get_or_create_session db osid nid).2
           (get_or_create_session db osid nid).1).drop
          ((sessionMessages (get_or_create_session db osid nid).2
              (get_or_create_session db osid nid).1).length + 1 - n)
        ++ [⟨(get_or_create_session db osid nid).1, "user", q,
             (get_or_create_session db osid nid).2.clock⟩] := by
  have hwf1 : ((get_or_create_session db osid nid).2).wf = true :=
    wf_get_or_create db osid nid h
  have hwf2 : ((memory_run_pre q osid db nid).2).wf = true :=
    wf_memory_run_pre q osid db nid h
  have hpre1 : (memory_run_pre q osid db nid).1
      = (get_or_create_session db osid nid).1 := rfl
  have hpre2 : (memory_run_pre q osid db nid).2
      = save_message (get_or_create_session db osid nid).2
          (get_or_create_session db osid nid).1 "user" q := rfl
  rw [get_chat_history_eq_drop _ _ _ hwf2, hpre1, hpre2,
    sessionMessages_save_same, List.length_append, List.length_singleton,
    List.drop_append_eq_append_drop]
  have hle : (sessionMessages (get_or_create_session db osid nid).2
      (get_or_create_session db osid nid).1).length + 1 - n
      ≤ (sessionMessages (get_or_create_session db osid nid).2
          (get_or_create_session db osid nid).1).length := by
    omega
  rw [Nat.sub_eq_zero_of_le hle]
  rfl

lemma rolesOk_parts {db : DB} (h : rolesOk db = true) :
    ∀ m ∈ db.messages, m.role = "user" ∨ m.role = "assistant" := by
  intro m hm
  unfold rolesOk at h
  rw [List.all_eq_true] at h
  have := h m hm
  simpa using this

lemma rolesOk_save (db : DB) (sid content role : String)
    (hr : role = "user" ∨ role = "assistant") (h : rolesOk db = true) :
    rolesOk (save_message db sid role content) = true := by
  unfold rolesOk save_message at *
  rw [List.all_eq_true] at h ⊢
  intro m hm
  rcases List.mem_append.mp hm with hm | hm
  · exact h m hm
  · have : m = (⟨sid, role, content, db.clock⟩ : MessageRec) := by simpa using hm
    subst this
    simpa using hr

lemma rolesOk_memory_run_pre (q : String) (osid : Option String) (db : DB)
    (nid : String) (h : rolesOk db = true) :
    rolesOk (memory_run_pre q osid db nid).2 = true := by
  have hmsg : ((get_or_create_session db osid nid).2).messages = db.messages :=
    (get_or_create_snd db osid nid).1
  have h1 : rolesOk (get_or_create_session db osid nid).2 = true := by
    unfold rolesOk at *
    rw [hmsg]
    exact h
  exact rolesOk_save _ _ _ _ (Or.inl rfl) h1

lemma touch_sessions_of_absent (l : List SessionRec) (sid : String) (now : Nat)
    (h : ∀ s ∈ l, ¬ s.session_id = sid) : touch_sessions l sid now = l := by
  induction l with
  | nil => rfl
  | cons a rest ih =>
    unfold touch_sessions at *
    rw [List.map_cons, if_neg (h a (by simp)), ih fun s hs => h s (by simp [hs])]

lemma find?_touch (l : List SessionRec) (sid : String) (now : Nat) :
    (touch_sessions l sid now).find? (fun s => s.session_id = sid)
      = (l.find? (fun s => s.session_id = sid)).map
          fun s => (⟨s.session_id, s.created_at, now⟩ : SessionRec) := by
  induction l with
  | nil => rfl
  | cons a rest ih =>
    by_cases h : a.session_id = sid
    · simp [touch_sessions, List.find?_cons, h]
    · simp only [touch_sessions, List.map_cons] at *
      rw [if_neg h]
      rw [List.find?_cons, List.find?_cons]
      simp only [h, decide_False]
      exact ih

lemma chunkLine_length_pos (d : DocumentChunk) : 1 ≤ (chunkLine d).length := by
  unfold chunkLine
  rw [String.length_append, String.length_append, String.length_append,
    String.length_append, String.length_append]
  have h1 : ("[" : String).length = 1 := rfl
  omega

lemma contextOf_ne_empty (d : DocumentChunk) (rest : List DocumentChunk) :
    ¬ contextOf (d :: rest) = "" := by
  have hlen : 1 ≤ (contextOf (d :: rest)).length := by
    cases rest with
    | nil => simpa [contextOf] using chunkLine_length_pos d
    | cons e rest' =>
      show 1 ≤ (chunkLine d ++ "\n\n" ++ contextOf (e :: rest')).length
      rw [String.length_append, String.length_append]
      have := chunkLine_length_pos d
      omega
  intro h0
  rw [h0] at hlen
  exact absurd hlen (by decide)

lemma systemPromptOf_eq (policy : String) (docs : List DocumentChunk) :
    systemPromptOf policy docs
      = if docs = [] then policy
        else policy ++ "\n\nContext from documents:\n" ++ contextOf docs := by
  unfold systemPromptOf
  cases docs with
  | nil => simp
  | cons d rest => simp [contextOf_ne_empty d rest]

lemma history_getLast (q : String) (osid : Option String) (db : DB)
    (nid : String) (n : Nat) (hn : 1 ≤ n) (h : db.wf = true) :
    (get_chat_history (memory_run_pre q osid db nid).2
        (memory_run_pre q osid db nid).1 n).getLast?
      = some ⟨(get_or_create_session db osid nid).1, "user", q,
              ((get_or_create_session db osid nid).2).clock⟩ := by
  rw [history_decomp q osid db nid n hn h, List.getLast?_concat]

lemma compose_getLast (policy : String) (docs : List DocumentChunk)
    (hist : List MessageRec) (m : MessageRec) (hm : hist.getLast? = some m) :
    (composeMessages policy docs hist).getLast? = some ⟨m.role, m.content⟩ := by
  unfold composeMessages
  have hne : hist ≠ [] := by
    intro h0
    rw [h0] at hm
    cases hm
  have hne2 : hist.map (fun x => (⟨x.role, x.content⟩ : ChatMessage)) ≠ [] := by
    simpa using hne
  have hsplit : (⟨"system", systemPromptOf policy docs⟩ : ChatMessage)
        :: hist.map (fun x => (⟨x.role, x.content⟩ : ChatMessage))
      = [⟨"system", systemPromptOf policy docs⟩]
        ++ hist.map (fun x => (⟨x.role, x.content⟩ : ChatMessage)) := rfl
  rw [hsplit, List.getLast?_append_of_ne_nil _ hne2, List.getLast?_map, hm]
  rfl

/-- Concrete store used to instantiate hypotheses: two sessions `"a"` and
`"b"`, three messages for `"a"` and one for `"b"`, well-formed stamps. -/
def dbEx : DB :=
  ⟨[⟨"a", 0, 4⟩, ⟨"b", 1, 1⟩],
   [⟨"a", "user", "q1", 2⟩, ⟨"a", "assistant", "a1", 3⟩,
    ⟨"b", "user", "q2", 4⟩, ⟨"a", "user", "q3", 5⟩],
   6⟩

/-! Claim theorems. -/

/-- Claim C7: for every query and session id, each agent facade
(`answer_network_guidance`, `answer_criteria_grid`) calls the orchestrator
`answer_question_with_memory` unchanged and returns its `session_id` and
`sources` unmodified, with the answer wrapped by exactly the fixed literal
prefix followed by a blank line and renamed to the `guidance`/`evaluation`
field; any orchestrator failure is propagated unchanged and the resulting
store is exactly the orchestrator's store, so the facades perform no
retrieval, generation or session operations of their own. -/
theorem c7_agent_facades_delegate (question : String) (osid : Option String)
    (db : DB) (newId : String) (docsRes : Except String (List DocumentChunk))
    (gen : List ChatMessage → Except String String) :
    answer_network_guidance question osid db newId docsRes gen
      = ((answer_question_with_memory question osid db newId docsRes gen).1.map
           fun r => ⟨r.session_id,
                     "Network Guidance (based on indexed documents):\n\n" ++ r.answer,
                     r.sources⟩,
         (answer_question_with_memory question osid db newId docsRes gen).2)
    ∧ answer_criteria_grid question osid db newId docsRes gen
      = ((answer_question_with_memory question osid db newId docsRes gen).1.map
           fun r => ⟨r.session_id,
                     "Criteria Evaluation (based on indexed documents):\n\n" ++ r.answer,
                     r.sources⟩,
         (answer_question_with_memory question osid db newId docsRes gen).2) := by
  rcases h : answer_question_with_memory question osid db newId docsRes gen
    with ⟨r, db'⟩
  cases r with
  | error e =>
    constructor
    · simp [answer_network_guidance, h, Except.map]
    · simp [answer_criteria_grid, h, Except.map]
  | ok v =>
    constructor
    · simp [answer_network_guidance, h, Except.map]
    · simp [answer_criteria_grid, h, Except.map]

/-- Claim C8: prompt composition in the memory variant is a pure function of
(policy, chunks, history) — `composeMessages` is a plain function, so
identical inputs yield identical output by construction — and its output is
one system message consisting of the base policy with the context block
appended under the literal `Context from documents:` header exactly when any
chunk exists (the policy alone for empty chunks, bridging the source's
emptiness test on the built context string), followed by the history messages
in order with role and content preserved; the context block joins the
per-chunk lines with blank-line separators. -/
theorem c8_compose_structure (policy : String) (docs : List DocumentChunk)
    (history : List MessageRec) :
    composeMessages policy docs history
      = (⟨"system",
          if docs = [] then policy
          else policy ++ "\n\nContext from documents:\n" ++ contextOf docs⟩
            : ChatMessage)
        :: history.map (fun m => (⟨m.role, m.content⟩ : ChatMessage))
    ∧ ∀ d rest, contextOf (d :: rest)
        = if rest = [] then chunkLine d
          else chunkLine d ++ "\n\n" ++ contextOf rest := by
  constructor
  · unfold composeMessages
    rw [systemPromptOf_eq]
  · intro d rest
    cases rest with
    | nil => rfl
    | cons e rest' => rfl

/-- Claim C1: in `answer_question_with_memory` the user's turn is appended to
the session store before generation is attempted; if the generation call
fails, the wrapped error propagates to the caller, the store returned at the
failure is exactly the store right after the user turn was recorded (so the
user turn remains recorded as its last message), and no assistant turn is
appended for that query. -/
theorem c1_user_turn_survives_generation_failure
    (question : String) (osid : Option String) (db : DB) (newId : String)
    (docs : List DocumentChunk) (gen : List ChatMessage → Except String String)
    (e : String)
    (hgen : gen (composeMessages BASE_SYSTEM docs
        (get_chat_history (memory_run_pre question osid db newId).2
          (memory_run_pre question osid db newId).1 CHAT_HISTORY_LIMIT))
      = .error e) :
    answer_question_with_memory question osid db newId (.ok docs) gen
      = (.error ("OpenAI Chat (404=wrong endpoint/deployment name): " ++ e),
         (memory_run_pre question osid db newId).2)
    ∧ ((memory_run_pre question osid db newId).2).messages
      = ((get_or_create_session db osid newId).2).messages
        ++ [⟨(get_or_create_session db osid newId).1, "user", question,
             ((get_or_create_session db osid newId).2).clock⟩] := by
  constructor
  · unfold answer_question_with_memory
    dsimp only
    rw [hgen]
  · rfl

theorem c1_witness :
    answer_question_with_memory "What is X?" none ⟨[], [], 0⟩ "s1" (.ok [])
        (fun _ => .error "boom")
      = (.error ("OpenAI Chat (404=wrong endpoint/deployment name): " ++ "boom"),
         (memory_run_pre "What is X?" none ⟨[], [], 0⟩ "s1").2)
    ∧ ((memory_run_pre "What is X?" none ⟨[], [], 0⟩ "s1").2).messages
      = [⟨"s1", "user", "What is X?", 1⟩] := by
  have h := c1_user_turn_survives_generation_failure "What is X?" none
    ⟨[], [], 0⟩ "s1" [] (fun _ => .error "boom") "boom" rfl
  exact ⟨h.1, by rfl⟩

/-- Claim C2 counterexample: on a fresh store the history fetched right after
recording the user turn (source lines 181–183) is exactly the singleton list
holding that just-appended current user turn, so the fetched history does
include it, contrary to the claim. -/
theorem c2_counterexample :
    get_chat_history (memory_run_pre "What is X?" none ⟨[], [], 0⟩ "s1").2
        (memory_run_pre "What is X?" none ⟨[], [], 0⟩ "s1").1 CHAT_HISTORY_LIMIT
      = [⟨"s1", "user", "What is X?", 1⟩] := by
  rfl

/-- Claim C2 as amended: the history fetched after recording the user turn
includes the just-appended current user turn as its final (most recent)
element, and the composed message sequence sent to generation ends with that
user turn taken from history — the code performs no separate re-append of the
current query, yet the composed sequence's final message is still the current
user query. -/
theorem c2_amended_history_contains_current_turn
    (question : String) (osid : Option String) (db : DB) (newId : String)
    (h : db.wf = true) :
    (get_chat_history (memory_run_pre question osid db newId).2
        (memory_run_pre question osid db newId).1 CHAT_HISTORY_LIMIT).getLast?
      = some ⟨(get_or_create_session db osid newId).1, "user", question,
              ((get_or_create_session db osid newId).2).clock⟩
    ∧ ∀ docs,
        (composeMessages BASE_SYSTEM docs
            (get_chat_history (memory_run_pre question osid db newId).2
              (memory_run_pre question osid db newId).1
              CHAT_HISTORY_LIMIT)).getLast?
          = some ⟨"user", question⟩ := by
  have hl := history_getLast question osid db newId CHAT_HISTORY_LIMIT
    (by decide) h
  refine ⟨hl, fun docs => ?_⟩
  exact compose_getLast BASE_SYSTEM docs _ _ hl

theorem c2_amended_witness :
    (get_chat_history (memory_run_pre "q2" (some "a") dbEx "fresh").2
        (memory_run_pre "q2" (some "a") dbEx "fresh").1
        CHAT_HISTORY_LIMIT).getLast?
      = some ⟨"a", "user", "q2", 7⟩
    ∧ (composeMessages BASE_SYSTEM []
          (get_chat_history (memory_run_pre "q2" (some "a") dbEx "fresh").2
            (memory_run_pre "q2" (some "a") dbEx "fresh").1
            CHAT_HISTORY_LIMIT)).getLast?
      = some ⟨"user", "q2"⟩ := by
  have h := c2_amended_history_contains_current_turn "q2" (some "a") dbEx
    "fresh" (by decide)
  exact ⟨h.1, h.2 []⟩

/-- Claim C3 counterexample: against a store with no sessions at all,
`save_message` completes and inserts the message row (the source raises no
`UnknownSessionError` — no such exception exists anywhere in the code), and
`get_chat_history` completes and returns the empty list instead of failing. -/
theorem c3_counterexample :
    (save_message ⟨[], [], 0⟩ "ghost" "user" "hello").messages
      = [⟨"ghost", "user", "hello", 0⟩]
    ∧ get_chat_history ⟨[], [], 0⟩ "ghost" CHAT_HISTORY_LIMIT = [] := by
  exact ⟨rfl, rfl⟩

/-- Claim C3 as amended: for a session id that does not exist in the store,
`save_message` silently inserts the message row while leaving the sessions
table unchanged (it updates no session and raises nothing), and
`get_chat_history` silently returns the — possibly empty — list of messages
recorded under that id; neither operation fails. -/
theorem c3_amended_silent_on_unknown_session
    (db : DB) (sid role content : String) (n : Nat)
    (habs : ∀ s ∈ db.sessions, ¬ s.session_id = sid)
    (hwf : db.wf = true) :
    (save_message db sid role content).sessions = db.sessions
    ∧ (save_message db sid role content).messages
      = db.messages ++ [⟨sid, role, content, db.clock⟩]
    ∧ (sessionMessages db sid = [] → get_chat_history db sid n = []) := by
  refine ⟨?_, rfl, ?_⟩
  · show touch_sessions db.sessions sid db.clock = db.sessions
    exact touch_sessions_of_absent db.sessions sid db.clock habs
  · intro hempty
    rw [get_chat_history_eq_drop db sid n hwf, hempty]
    simp

theorem c3_amended_witness :
    (save_message dbEx "ghost" "user" "hello").sessions = dbEx.sessions
    ∧ (save_message dbEx "ghost" "user" "hello").messages
      = dbEx.messages ++ [⟨"ghost", "user", "hello", 6⟩]
    ∧ get_chat_history dbEx "ghost" CHAT_HISTORY_LIMIT = [] := by
  have h := c3_amended_silent_on_unknown_session dbEx "ghost" "user" "hello"
    CHAT_HISTORY_LIMIT (by decide) (by decide)
  exact ⟨h.1, h.2.1, h.2.2 (by decide)⟩

/-- Claim C4 counterexample: on zero retrieved chunks the stateless variant
`answer_question` does not call the generation client and does not return a
generated answer — it returns the fixed fallback text with empty sources, and
its result does not depend on the generation oracle at all. -/
theorem c4_counterexample :
    answer_question "What is X?" (.ok []) (fun _ => .ok "generated")
      = .ok ⟨"I cannot find this information in the available documents.", []⟩
    ∧ answer_question "What is X?" (.ok []) (fun _ => .ok "generated")
      = answer_question "What is X?" (.ok []) (fun _ => .error "provider down") := by
  exact ⟨rfl, rfl⟩

/-- Claim C4 as amended: when retrieval succeeds with zero chunks, the memory
variant `answer_question_with_memory` still calls the generation client with
the context block omitted from the system message (the system prompt is the
base policy alone) and returns the generated answer with an empty sources
list; the stateless `answer_question`, by contrast, skips generation and
returns the fixed no-information answer with empty sources. -/
theorem c4_amended_empty_retrieval
    (question : String) (osid : Option String) (db : DB) (newId : String)
    (gen : List ChatMessage → Except String String) (a : String)
    (hgen : gen (composeMessages BASE_SYSTEM []
        (get_chat_history (memory_run_pre question osid db newId).2
          (memory_run_pre question osid db newId).1 CHAT_HISTORY_LIMIT))
      = .ok a) :
    answer_question_with_memory question osid db newId (.ok []) gen
      = (.ok ⟨(memory_run_pre question osid db newId).1, a, []⟩,
         save_message (memory_run_pre question osid db newId).2
           (memory_run_pre question osid db newId).1 "assistant" a)
    ∧ systemPromptOf BASE_SYSTEM [] = BASE_SYSTEM
    ∧ ∀ q gen', answer_question q (.ok []) gen'
        = .ok ⟨"I cannot find this information in the available documents.", []⟩ := by
  refine ⟨?_, rfl, fun q gen' => rfl⟩
  unfold answer_question_with_memory
  dsimp only
  rw [hgen]
  rfl

theorem c4_amended_witness :
    answer_question_with_memory "What is X?" none ⟨[], [], 0⟩ "s1" (.ok [])
        (fun _ => .ok "answer from empty context")
      = (.ok ⟨"s1", "answer from empty context", []⟩,
         save_message (memory_run_pre "What is X?" none ⟨[], [], 0⟩ "s1").2
           "s1" "assistant" "answer from empty context")
    ∧ systemPromptOf BASE_SYSTEM [] = BASE_SYSTEM
    ∧ answer_question "What is X?" (.ok [])
        (fun _ => .ok "answer from empty context")
      = .ok ⟨"I cannot find this information in the available documents.", []⟩ := by
  have h := c4_amended_empty_retrieval "What is X?" none ⟨[], [], 0⟩ "s1"
    (fun _ => .ok "answer from empty context") "answer from empty context" rfl
  exact ⟨h.1, h.2.1, h.2.2 "What is X?" (fun _ => .ok "answer from empty context")⟩

/-- Claim C9 counterexample: the `/rag/query` handler reflects the internal
exception text into the caller-visible 500 detail
(`"Internal Server Error: " + str(e)`), so the detail carries the provider
error text verbatim and two runs differing only in the provider's error
message produce different caller-visible failures — the failure indication is
not independent of the provider exception's content. -/
theorem c9_counterexample :
    (rag_query "q" none ⟨[], [], 0⟩ "s1" (.ok [])
        (fun _ => .error "provider secret endpoint A")).1
      = .error ⟨500,
          "Internal Server Error: OpenAI Chat (404=wrong endpoint/deployment name): provider secret endpoint A"⟩
    ∧ (rag_query "q" none ⟨[], [], 0⟩ "s1" (.ok [])
        (fun _ => .error "provider secret endpoint B")).1
      = .error ⟨500,
          "Internal Server Error: OpenAI Chat (404=wrong endpoint/deployment name): provider secret endpoint B"⟩
    ∧ (⟨500, "Internal Server Error: OpenAI Chat (404=wrong endpoint/deployment name): provider secret endpoint A"⟩
        : HTTPError)
      ≠ ⟨500, "Internal Server Error: OpenAI Chat (404=wrong endpoint/deployment name): provider secret endpoint B"⟩ := by
  refine ⟨rfl, rfl, ?_⟩
  decide

/-- Claim C9 as amended: when a query fails, the caller of `/rag/query`
receives status 500 with detail `"Internal Server Error: "` followed by the
internal exception text — which for provider failures embeds the provider's
error message — so the caller-visible detail is a function of, not
independent of, the underlying exception's content; only the status code is
generic. -/
theorem c9_amended_error_detail_embeds_cause
    (question : String) (osid : Option String) (db : DB) (newId : String)
    (docsRes : Except String (List DocumentChunk))
    (gen : List ChatMessage → Except String String) (e : String)
    (herr : (answer_question_with_memory question osid db newId docsRes gen).1
        = .error e) :
    (rag_query question osid db newId docsRes gen).1
      = .error ⟨500, "Internal Server Error: " ++ e⟩
    ∧ (rag_query question osid db newId docsRes gen).2
      = (answer_question_with_memory question osid db newId docsRes gen).2 := by
  unfold rag_query
  rcases hx : answer_question_with_memory question osid db newId docsRes gen
    with ⟨r, db'⟩
  rw [hx] at herr
  cases r with
  | error e0 =>
    have he : e0 = e := by simpa using herr
    subst he
    exact ⟨rfl, rfl⟩
  | ok v => exact absurd herr (by simp)

theorem c9_amended_witness :
    (rag_query "q" none ⟨[], [], 0⟩ "s1" (.ok [])
        (fun _ => .error "gen down")).1
      = .error ⟨500, "Internal Server Error: "
          ++ "OpenAI Chat (404=wrong endpoint/deployment name): gen down"⟩ := by
  have h := c9_amended_error_detail_embeds_cause "q" none ⟨[], [], 0⟩ "s1"
    (.ok []) (fun _ => .error "gen down")
    "OpenAI Chat (404=wrong endpoint/deployment name): gen down" rfl
  exact h.1

/-- Claim C5: for every session and limit N, `get_chat_history` returns at
most N messages; the result is exactly the suffix of the session's stored
messages obtained by dropping all but the last N (so when more than N exist
it is exactly the N most recent ones, in chronological oldest-first order,
being a suffix of the chronologically ordered stored list), and a session
with no messages yields the empty sequence. -/
theorem c5_history_window (db : DB) (sid : String) (n : Nat)
    (h : db.wf = true) :
    get_chat_history db sid n
      = (sessionMessages db sid).drop ((sessionMessages db sid).length - n)
    ∧ (get_chat_history db sid n).length ≤ n
    ∧ get_chat_history db sid n <:+ sessionMessages db sid
    ∧ (sessionMessages db sid = [] → get_chat_history db sid n = []) := by
  have hd := get_chat_history_eq_drop db sid n h
  refine ⟨hd, ?_, ?_, ?_⟩
  · rw [hd, List.length_drop]
    omega
  · rw [hd]
    exact List.drop_suffix _ _
  · intro he
    rw [hd, he]
    simp

theorem c5_witness :
    get_chat_history dbEx "a" 2
      = (sessionMessages dbEx "a").drop ((sessionMessages dbEx "a").length - 2)
    ∧ (get_chat_history dbEx "a" 2).length ≤ 2
    ∧ get_chat_history dbEx "a" 2
        = [⟨"a", "assistant", "a1", 3⟩, ⟨"a", "user", "q3", 5⟩] := by
  have h := c5_history_window dbEx "a" 2 (by decide)
  refine ⟨h.1, h.2.1, ?_⟩
  rw [h.1]
  rfl

/-- Claim C6: `get_or_create_session` with a supplied id that matches an
existing session updates that session's `last_active` to now and returns the
same id without creating a new session (the sessions list keeps its length);
with no id, or a non-matching id, it creates a new session whose identifier is
the freshly generated one and whose two timestamps both equal now, persists it
(exactly once, given that the generated id is unique), and returns the new
id. -/
theorem c6_get_or_create_resolution (db : DB) (newId sid : String)
    (s : SessionRec) :
    (db.sessions.find? (fun t => t.session_id = sid) = some s → ¬ sid = "" →
      get_or_create_session db (some sid) newId
        = (sid, ⟨touch_sessions db.sessions sid db.clock, db.messages,
                 db.clock + 1⟩)
      ∧ (touch_sessions db.sessions sid db.clock).length = db.sessions.length
      ∧ (touch_sessions db.sessions sid db.clock).find?
            (fun t => t.session_id = sid)
          = some ⟨s.session_id, s.created_at, db.clock⟩)
    ∧ get_or_create_session db none newId
        = (newId, ⟨db.sessions ++ [⟨newId, db.clock, db.clock⟩], db.messages,
                   db.clock + 1⟩)
    ∧ (db.sessions.find? (fun t => t.session_id = sid) = none → ¬ sid = "" →
        get_or_create_session db (some sid) newId
          = (newId, ⟨db.sessions ++ [⟨newId, db.clock, db.clock⟩], db.messages,
                     db.clock + 1⟩))
    ∧ ((∀ t ∈ db.sessions, ¬ t.session_id = newId) →
        ((get_or_create_session db none newId).2).sessions.filter
            (fun t => t.session_id = newId)
          = [⟨newId, db.clock, db.clock⟩]) := by
  refine ⟨?_, rfl, ?_, ?_⟩
  · intro hf hne
    have hsid : s.session_id = sid := by simpa using List.find?_some hf
    refine ⟨?_, ?_, ?_⟩
    · simp [get_or_create_session, hne, hf, hsid]
    · exact List.length_map _ _
    · rw [find?_touch, hf]
      rfl
  · intro hf hne
    simp [get_or_create_session, create_session, hne, hf]
  · intro hfresh
    have h0 : db.sessions.filter (fun t => t.session_id = newId) = [] :=
      List.filter_eq_nil_iff.mpr (by
        intro a ha
        simpa using hfresh a ha)
    have hsess : ((get_or_create_session db none newId).2).sessions
        = db.sessions ++ [⟨newId, db.clock, db.clock⟩] := rfl
    rw [hsess, List.filter_append, h0]
    simp

theorem c6_witness :
    get_or_create_session dbEx (some "a") "fresh"
      = ("a", ⟨touch_sessions dbEx.sessions "a" 6, dbEx.messages, 7⟩)
    ∧ (touch_sessions dbEx.sessions "a" 6).find? (fun t => t.session_id = "a")
        = some ⟨"a", 0, 6⟩
    ∧ get_or_create_session dbEx none "fresh"
        = ("fresh", ⟨dbEx.sessions ++ [⟨"fresh", 6, 6⟩], dbEx.messages, 7⟩)
    ∧ ((get_or_create_session dbEx none "fresh").2).sessions.filter
        (fun t => t.session_id = "fresh") = [⟨"fresh", 6, 6⟩] := by
  have h := c6_get_or_create_resolution dbEx "fresh" "a" ⟨"a", 0, 4⟩
  have h1 := h.1 rfl (by decide)
  exact ⟨h1.1, h1.2.2, h.2.1, h.2.2.2 (by decide)⟩

/-- Claim C10: for every call of `answer_question_with_memory` that reaches
generation, the message list passed to the chat completion — which by
definition of `answer_question_with_memory` is
`composeMessages BASE_SYSTEM docs (get_chat_history … CHAT_HISTORY_LIMIT)` —
is bounded: the fetched history holds between 1 and `CHAT_HISTORY_LIMIT` (6)
messages, the composed list is that history preceded by the single system
message in first position (no other message carries the system role, given
that the store only holds user/assistant turns), so its total length lies
between 2 and 7, and its final message is the current user question saved
immediately before the history fetch. -/
theorem c10_generation_prompt_bounded
    (question : String) (osid : Option String) (db : DB) (newId : String)
    (docs : List DocumentChunk)
    (hwf : db.wf = true) (hroles : rolesOk db = true) :
    let hist := get_chat_history (memory_run_pre question osid db newId).2
        (memory_run_pre question osid db newId).1 CHAT_HISTORY_LIMIT
    let msgs := composeMessages BASE_SYSTEM docs hist
    1 ≤ hist.length
    ∧ hist.length ≤ CHAT_HISTORY_LIMIT
    ∧ msgs.length = hist.length + 1
    ∧ 2 ≤ msgs.length
    ∧ msgs.length ≤ 7
    ∧ msgs.head? = some ⟨"system", systemPromptOf BASE_SYSTEM docs⟩
    ∧ msgs.getLast? = some ⟨"user", question⟩
    ∧ ∀ m ∈ msgs.tail, ¬ m.role = "system" := by
  dsimp only
  have hwf2 : ((memory_run_pre question osid db newId).2).wf = true :=
    wf_memory_run_pre question osid db newId hwf
  have hlen := get_chat_history_length (memory_run_pre question osid db newId).2
    (memory_run_pre question osid db newId).1 CHAT_HISTORY_LIMIT hwf2
  have hsm : sessionMessages (memory_run_pre question osid db newId).2
        (memory_run_pre question osid db newId).1
      = sessionMessages (get_or_create_session db osid newId).2
          (get_or_create_session db osid newId).1
        ++ [⟨(get_or_create_session db osid newId).1, "user", question,
             ((get_or_create_session db osid newId).2).clock⟩] :=
    sessionMessages_save_same _ _ _ _
  rw [hsm, List.length_append, List.length_singleton] at hlen
  have hhist1 : 1 ≤ (get_chat_history (memory_run_pre question osid db newId).2
      (memory_run_pre question osid db newId).1 CHAT_HISTORY_LIMIT).length := by
    rw [hlen]
    have : CHAT_HISTORY_LIMIT = 6 := rfl
    omega
  have hhist6 : (get_chat_history (memory_run_pre question osid db newId).2
      (memory_run_pre question osid db newId).1 CHAT_HISTORY_LIMIT).length
      ≤ CHAT_HISTORY_LIMIT := by
    rw [hlen]
    omega
  have hmlen : (composeMessages BASE_SYSTEM docs
      (get_chat_history (memory_run_pre question osid db newId).2
        (memory_run_pre question osid db newId).1 CHAT_HISTORY_LIMIT)).length
      = (get_chat_history (memory_run_pre question osid db newId).2
          (memory_run_pre question osid db newId).1 CHAT_HISTORY_LIMIT).length
        + 1 := by
    unfold composeMessages
    rw [List.length_cons, List.length_map]
  have hCL : CHAT_HISTORY_LIMIT = 6 := rfl
  refine ⟨hhist1, hhist6, hmlen, by omega, by omega, rfl, ?_, ?_⟩
  · exact compose_getLast BASE_SYSTEM docs _ _
      (history_getLast question osid db newId CHAT_HISTORY_LIMIT (by decide) hwf)
  · intro m hm
    have hm' : m ∈ (get_chat_history (memory_run_pre question osid db newId).2
        (memory_run_pre question osid db newId).1 CHAT_HISTORY_LIMIT).map
          (fun x => (⟨x.role, x.content⟩ : ChatMessage)) := hm
    obtain ⟨x, hx, hfx⟩ := List.mem_map.mp hm'
    have hxmem : x ∈ ((memory_run_pre question osid db newId).2).messages :=
      mem_of_mem_get_chat_history hwf2 hx
    have hrole := rolesOk_parts
      (rolesOk_memory_run_pre question osid db newId hroles) x hxmem
    rcases hrole with hrole | hrole <;>
      · rw [← hfx]
        simp [hrole]

theorem c10_witness :
    1 ≤ (get_chat_history (memory_run_pre "q4" (some "a") dbEx "fresh").2
        (memory_run_pre "q4" (some "a") dbEx "fresh").1
        CHAT_HISTORY_LIMIT).length
    ∧ (composeMessages BASE_SYSTEM []
          (get_chat_history (memory_run_pre "q4" (some "a") dbEx "fresh").2
            (memory_run_pre "q4" (some "a") dbEx "fresh").1
            CHAT_HISTORY_LIMIT)).length ≤ 7
    ∧ (composeMessages BASE_SYSTEM []
          (get_chat_history (memory_run_pre "q4" (some "a") dbEx "fresh").2
            (memory_run_pre "q4" (some "a") dbEx "fresh").1
            CHAT_HISTORY_LIMIT)).getLast? = some ⟨"user", "q4"⟩ := by
  have h := c10_generation_prompt_bounded "q4" (some "a") dbEx "fresh" []
    (by decide) (by decide)
  exact ⟨h.1, h.2.2.2.2.1, h.2.2.2.2.2.2.1⟩

end SbgRag
